import Mathlib

/-!
Shallow embedding of `gosqlmetrics` (package `sqlmetrics`): a Prometheus
collector exposing `database/sql` connection-pool statistics.

The repository has two source files with two collector shapes:
  * `metrics.go` — a multi-pool collector holding an RWMutex-guarded map
    from `*sql.DB` handles to label-value lists (`Multi` namespace here);
  * a second file — a single-pool collector bound at construction to one
    `*sql.DB` and one fixed label-value list (`Single` namespace here).

Modelling choices:
  * Pool handles (`*sql.DB`) become abstract identities (`DB := Nat`); the
    live statistics read `db.Stats()` becomes an explicit oracle function
    `statsOf : DB → DBStats` passed to `Collect`.
  * Go `float64` values are modelled as exact rationals (`ℚ`); conversion
    of an integer to `float64` is exact whenever its magnitude is below
    2^53, which is the range the specification confines itself to, so the
    model is faithful there.  `time.Duration.Seconds` is modelled by its
    exact real-number value `sec + nsec/1e9` with Go's truncated division.
  * `prometheus.MustNewConstMetric` panics when the number of label values
    differs from the descriptor's number of variable labels; a panic is
    modelled as an aborted emission (`Bool` flag `false`), and the samples
    already sent on the channel before the panic stay visible, matching
    Go channel semantics.
  * A collection pass produces a trace of events: one `statsCall` per pool
    iteration (the single `db.Stats()` read) followed by the `emit` events
    for the samples actually constructed.
-/

namespace sqlmetrics

/-- The statistics snapshot returned by `database/sql`'s `DB.Stats()`.
`WaitDuration` is a `time.Duration`, i.e. an integer count of nanoseconds. -/
structure DBStats where
  MaxOpenConnections : Int
  OpenConnections : Int
  InUse : Int
  Idle : Int
  WaitCount : Int
  WaitDuration : Int
  MaxIdleClosed : Int
  MaxLifetimeClosed : Int
deriving Repr, DecidableEq

/-- Model of Go's `float64(n)` on an integer: exact as a rational.  The
conversion performed by the Go code is lossless exactly when
`n.natAbs < 2 ^ 53`, the range in which every integer is representable in
IEEE-754 binary64; theorems about sample values carry that bound as a
hypothesis to mark the region where this model is faithful. -/
def f64ofInt (n : Int) : ℚ := (n : ℚ)

/-- Model of Go's `time.Duration.Seconds`:
`sec := d / 1e9; nsec := d % 1e9; float64(sec) + float64(nsec)/1e9`,
with Go's `/` and `%` on `int64` truncating toward zero (`tdiv`/`tmod`). -/
def durationSeconds (d : Int) : ℚ :=
  (Int.tdiv d 1000000000 : ℚ) + (Int.tmod d 1000000000 : ℚ) / 1000000000

/-- A `prometheus.Desc`: fully-qualified metric name, help text, and the
ordered variable label names. -/
structure Desc where
  fqName : String
  help : String
  variableLabels : List String
deriving Repr, DecidableEq

/-- `prometheus.NewDesc` (constant labels are always `nil` in this code). -/
def NewDesc (fqName help : String) (variableLabels : List String) : Desc :=
  ⟨fqName, help, variableLabels⟩

/-- `prometheus.ValueType` as used by this code. -/
inductive ValueType where
  | GaugeValue
  | CounterValue
deriving Repr, DecidableEq

/-- A constant metric sample as built by `prometheus.MustNewConstMetric`. -/
structure Metric where
  desc : Desc
  vtype : ValueType
  value : ℚ
  labelValues : List String
deriving Repr, DecidableEq

/-- `prometheus.MustNewConstMetric`: builds a constant sample, panicking
(`none`) when the number of label values does not match the descriptor's
number of variable labels (client_golang's `validateLabelValues`). -/
def MustNewConstMetric (d : Desc) (vt : ValueType) (v : ℚ) (lvs : List String) :
    Option Metric :=
  if lvs.length = d.variableLabels.length then some ⟨d, vt, v, lvs⟩ else none

/-- The `metrics` struct: the 8 descriptors built by `NewCollector`. -/
structure metrics where
  maxConnsDesc : Desc
  openConns : Desc
  inUse : Desc
  idle : Desc
  waitCount : Desc
  waitDuration : Desc
  maxIdleClosed : Desc
  maxLifetimeClosed : Desc
deriving Repr, DecidableEq

/-- The descriptor-building code shared verbatim by both `NewCollector`
functions: 8 `prometheus.NewDesc` calls with fixed name suffixes and help
strings, all carrying the configured label names. -/
def mkMetrics (pfx : String) (labels : List String) : metrics :=
  { maxConnsDesc := NewDesc (pfx ++ "connections_max")
      "Max number of open connections to the DB" labels
    openConns := NewDesc (pfx ++ "connections_open")
      "Current number of established connections bith inuse and idle" labels
    inUse := NewDesc (pfx ++ "connections_in_use")
      "The number of connections currently in use" labels
    idle := NewDesc (pfx ++ "connections_idle")
      "The number of idle connections" labels
    waitCount := NewDesc (pfx ++ "connections_wait_count_total")
      "The total number of connections waited for" labels
    waitDuration := NewDesc (pfx ++ "connections_wait_duration_seconds_total")
      "The total time blocked waiting for a new connection in seconds" labels
    maxIdleClosed := NewDesc (pfx ++ "connections_max_idle_closed_total")
      "The total number of connections closed due to SetMaxIdleConns" labels
    maxLifetimeClosed := NewDesc (pfx ++ "connections_max_lifetime_closed_total")
      "The total number of connections closed due to SetConnMaxLifetime" labels }

/-- The 8 descriptors of a `metrics` struct in source order. -/
def descList (m : metrics) : List Desc :=
  [m.maxConnsDesc, m.openConns, m.inUse, m.idle,
   m.waitCount, m.waitDuration, m.maxIdleClosed, m.maxLifetimeClosed]

/-- An abstract pool handle (`*sql.DB`): only its identity matters. -/
abbrev DB := Nat

/-- One observable event of a collection pass: a `db.Stats()` read, or a
sample sent on the output channel. -/
inductive Event where
  | statsCall (db : DB)
  | emit (m : Metric)
deriving Repr, DecidableEq

/-- The samples a pass attempts to build for one pool, in source order:
four gauges from current-state fields, then four counters from cumulative
fields, each paired with its descriptor and the pool's label values.
`none` entries are `MustNewConstMetric` panics. -/
def poolSamples (m : metrics) (labelValues : List String) (stats : DBStats) :
    List (Option Metric) :=
  [MustNewConstMetric m.maxConnsDesc ValueType.GaugeValue
      (f64ofInt stats.MaxOpenConnections) labelValues,
   MustNewConstMetric m.openConns ValueType.GaugeValue
      (f64ofInt stats.OpenConnections) labelValues,
   MustNewConstMetric m.inUse ValueType.GaugeValue
      (f64ofInt stats.InUse) labelValues,
   MustNewConstMetric m.idle ValueType.GaugeValue
      (f64ofInt stats.Idle) labelValues,
   MustNewConstMetric m.waitCount ValueType.CounterValue
      (f64ofInt stats.WaitCount) labelValues,
   MustNewConstMetric m.waitDuration ValueType.CounterValue
      (durationSeconds stats.WaitDuration) labelValues,
   MustNewConstMetric m.maxIdleClosed ValueType.CounterValue
      (f64ofInt stats.MaxIdleClosed) labelValues,
   MustNewConstMetric m.maxLifetimeClosed ValueType.CounterValue
      (f64ofInt stats.MaxLifetimeClosed) labelValues]

/-- Send built samples on the channel one by one; a `MustNewConstMetric`
panic (`none`) aborts the pass, with the earlier sends still visible.
The `Bool` is `true` iff no panic occurred. -/
def emitAll : List (Option Metric) → List Event × Bool
  | [] => ([], true)
  | none :: _ => ([], false)
  | some m :: rest =>
      let r := emitAll rest
      (Event.emit m :: r.1, r.2)

/-- Trace of events made visible by one collection pass. -/
def emitted : List Event → List Metric
  | [] => []
  | Event.emit m :: rest => m :: emitted rest
  | Event.statsCall _ :: rest => emitted rest

/-- The pool handles on which `db.Stats()` was called during a trace. -/
def statsCalls : List Event → List DB
  | [] => []
  | Event.emit _ :: rest => statsCalls rest
  | Event.statsCall db :: rest => db :: statsCalls rest

namespace Multi

/-- `Options` of `metrics.go`: a name prefix and the ordered label names.
(Go field `Prefix` is rendered `pfx` here.) -/
structure Options where
  pfx : String
  Labels : List String
deriving Repr, DecidableEq

/-- The multi-pool `Collector` of `metrics.go`.  The Go registry is a
`map[*sql.DB][]string` guarded by a `sync.RWMutex`; it is modelled as an
association list (one fixed iteration order) accessed atomically — the
lock admits no interleaving within a pass. -/
structure Collector where
  o : Options
  m : metrics
  dbs : List (DB × List String)
deriving Repr, DecidableEq

/-- `NewCollector` of `metrics.go`: builds the 8 descriptors and an empty
registry.  Pure construction, no registration with any global registry. -/
def NewCollector (o : Options) : Collector :=
  { o := o, m := mkMetrics o.pfx o.Labels, dbs := [] }

/-- `MustRegisterDB`: under the write lock, panic (`none`, registry left
untouched — the map assignment after the `panic` never runs) if the handle
is already present, else insert the handle with its label values. -/
def MustRegisterDB (c : Collector) (db : DB) (labelValues : List String) :
    Option Unit × Collector :=
  match c.dbs.lookup db with
  | some _ => (none, c)
  | none => (some (), { c with dbs := c.dbs ++ [(db, labelValues)] })

/-- The loop body sequence of `Collect` in `metrics.go`: for each
registered pool, read `db.Stats()` once, then build and send the 8
samples; a `MustNewConstMetric` panic aborts the whole pass. -/
def collectLoop (m : metrics) (statsOf : DB → DBStats) :
    List (DB × List String) → List Event × Bool
  | [] => ([], true)
  | (db, lv) :: rest =>
      let r := emitAll (poolSamples m lv (statsOf db))
      if r.2 then
        let tl := collectLoop m statsOf rest
        (Event.statsCall db :: r.1 ++ tl.1, tl.2)
      else
        (Event.statsCall db :: r.1, false)

/-- `Collect` of `metrics.go`: under the read lock, iterate the registry.
The result is the event trace of the pass and whether it completed without
panicking.  `Collect` returns no modified collector: it keeps no state. -/
def Collect (c : Collector) (statsOf : DB → DBStats) : List Event × Bool :=
  collectLoop c.m statsOf c.dbs

/-- `Describe` of `metrics.go`: `prometheus.DescribeByCollect` runs
`Collect` on a fresh channel and forwards each received metric's
descriptor. -/
def Describe (c : Collector) (statsOf : DB → DBStats) : List Desc × Bool :=
  let r := Collect c statsOf
  ((emitted r.1).map Metric.desc, r.2)

end Multi

namespace Single

/-- `Options` of the single-pool file: prefix, label names, and the fixed
label values bound at construction. -/
structure Options where
  pfx : String
  Labels : List String
  LabelValues : List String
deriving Repr, DecidableEq

/-- The single-pool `Collector`: bound to exactly one pool handle. -/
structure Collector where
  o : Options
  db : DB
  m : metrics
deriving Repr, DecidableEq

/-- `NewCollector` of the single-pool file: stores the handle and builds
the same 8 descriptors. -/
def NewCollector (o : Options) (db : DB) : Collector :=
  { o := o, db := db, m := mkMetrics o.pfx o.Labels }

/-- `Collect` of the single-pool file: one `Stats()` read, then the 8
samples with the fixed `LabelValues`. -/
def Collect (c : Collector) (statsOf : DB → DBStats) : List Event × Bool :=
  let r := emitAll (poolSamples c.m c.o.LabelValues (statsOf c.db))
  (Event.statsCall c.db :: r.1, r.2)

/-- `Describe` of the single-pool file: again `DescribeByCollect`. -/
def Describe (c : Collector) (statsOf : DB → DBStats) : List Desc × Bool :=
  let r := Collect c statsOf
  ((emitted r.1).map Metric.desc, r.2)

end Single

/-- The 8 metric samples one pool contributes when no panic occurs, with
their values written out: the four current-state fields as gauges, the
four cumulative fields as counters, the wait duration converted to seconds
(`WaitDuration` is in nanoseconds), every sample carrying the pool's label
values. -/
def poolMetrics (m : metrics) (lv : List String) (S : DBStats) : List Metric :=
  [⟨m.maxConnsDesc, ValueType.GaugeValue, (S.MaxOpenConnections : ℚ), lv⟩,
   ⟨m.openConns, ValueType.GaugeValue, (S.OpenConnections : ℚ), lv⟩,
   ⟨m.inUse, ValueType.GaugeValue, (S.InUse : ℚ), lv⟩,
   ⟨m.idle, ValueType.GaugeValue, (S.Idle : ℚ), lv⟩,
   ⟨m.waitCount, ValueType.CounterValue, (S.WaitCount : ℚ), lv⟩,
   ⟨m.waitDuration, ValueType.CounterValue, (S.WaitDuration : ℚ) / 1000000000, lv⟩,
   ⟨m.maxIdleClosed, ValueType.CounterValue, (S.MaxIdleClosed : ℚ), lv⟩,
   ⟨m.maxLifetimeClosed, ValueType.CounterValue, (S.MaxLifetimeClosed : ℚ), lv⟩]

/-- Expected full trace of a successful multi-pool pass over a registry. -/
def expectedEvents (m : metrics) (statsOf : DB → DBStats) :
    List (DB × List String) → List Event
  | [] => []
  | (db, lv) :: rest =>
      Event.statsCall db :: (poolMetrics m lv (statsOf db)).map Event.emit
        ++ expectedEvents m statsOf rest

/-- Expected emitted samples of a successful multi-pool pass. -/
def expectedMetrics (m : metrics) (statsOf : DB → DBStats) :
    List (DB × List String) → List Metric
  | [] => []
  | (db, lv) :: rest =>
      poolMetrics m lv (statsOf db) ++ expectedMetrics m statsOf rest

/-- Every field of the snapshot is below 2^53 in magnitude: the range in
which Go's `float64` conversion is lossless and this model is faithful. -/
def statsBounded (S : DBStats) : Prop :=
  S.MaxOpenConnections.natAbs < 2 ^ 53 ∧ S.OpenConnections.natAbs < 2 ^ 53 ∧
  S.InUse.natAbs < 2 ^ 53 ∧ S.Idle.natAbs < 2 ^ 53 ∧
  S.WaitCount.natAbs < 2 ^ 53 ∧ S.WaitDuration.natAbs < 2 ^ 53 ∧
  S.MaxIdleClosed.natAbs < 2 ^ 53 ∧ S.MaxLifetimeClosed.natAbs < 2 ^ 53

instance (S : DBStats) : Decidable (statsBounded S) := by
  unfold statsBounded; infer_instance

/-! ### Helper lemmas -/

theorem durationSeconds_eq (d : Int) :
    durationSeconds d = (d : ℚ) / 1000000000 := by
  have h := Int.tdiv_add_tmod' d 1000000000
  have hc : ((Int.tdiv d 1000000000 * 1000000000 + Int.tmod d 1000000000 : Int) : ℚ)
      = (d : ℚ) := by exact_mod_cast congrArg (fun z : Int => (z : ℚ)) h
  push_cast at hc
  unfold durationSeconds
  field_simp
  linarith

theorem emitAll_poolSamples (pfx : String) (labels lv : List String) (S : DBStats)
    (h : lv.length = labels.length) :
    emitAll (poolSamples (mkMetrics pfx labels) lv S) =
      ((poolMetrics (mkMetrics pfx labels) lv S).map Event.emit, true) := by
  simp [poolSamples, poolMetrics, MustNewConstMetric, mkMetrics, NewDesc, emitAll, h,
        f64ofInt, durationSeconds_eq]

theorem collectLoop_eq (pfx : String) (labels : List String) (statsOf : DB → DBStats)
    (reg : List (DB × List String)) (h : ∀ p ∈ reg, (p.2).length = labels.length) :
    Multi.collectLoop (mkMetrics pfx labels) statsOf reg =
      (expectedEvents (mkMetrics pfx labels) statsOf reg, true) := by
  induction reg with
  | nil => simp [Multi.collectLoop, expectedEvents]
  | cons p rest ih =>
      obtain ⟨db, lv⟩ := p
      have h1 : lv.length = labels.length := h (db, lv) (by simp)
      have h2 : ∀ q ∈ rest, (q.2).length = labels.length :=
        fun q hq => h q (by simp [hq])
      simp [Multi.collectLoop, emitAll_poolSamples pfx labels lv (statsOf db) h1,
        expectedEvents, ih h2]

theorem emitted_append (a b : List Event) :
    emitted (a ++ b) = emitted a ++ emitted b := by
  induction a with
  | nil => rfl
  | cons e rest ih => cases e <;> simp [emitted, ih]

theorem emitted_map_emit (ms : List Metric) :
    emitted (ms.map Event.emit) = ms := by
  induction ms with
  | nil => rfl
  | cons m rest ih => simp [emitted, ih]

theorem statsCalls_append (a b : List Event) :
    statsCalls (a ++ b) = statsCalls a ++ statsCalls b := by
  induction a with
  | nil => rfl
  | cons e rest ih => cases e <;> simp [statsCalls, ih]

theorem statsCalls_map_emit (ms : List Metric) :
    statsCalls (ms.map Event.emit) = [] := by
  induction ms with
  | nil => rfl
  | cons m rest ih => simp [statsCalls, ih]

theorem emitted_expectedEvents (m : metrics) (statsOf : DB → DBStats)
    (reg : List (DB × List String)) :
    emitted (expectedEvents m statsOf reg) = expectedMetrics m statsOf reg := by
  induction reg with
  | nil => rfl
  | cons p rest ih =>
      obtain ⟨db, lv⟩ := p
      simp [expectedEvents, expectedMetrics, emitted, emitted_append,
        emitted_map_emit, ih, poolMetrics]

theorem statsCalls_expectedEvents (m : metrics) (statsOf : DB → DBStats)
    (reg : List (DB × List String)) :
    statsCalls (expectedEvents m statsOf reg) = reg.map Prod.fst := by
  induction reg with
  | nil => rfl
  | cons p rest ih =>
      obtain ⟨db, lv⟩ := p
      simp [expectedEvents, statsCalls, statsCalls_append, statsCalls_map_emit, ih]

theorem expectedMetrics_length (m : metrics) (statsOf : DB → DBStats)
    (reg : List (DB × List String)) :
    (expectedMetrics m statsOf reg).length = 8 * reg.length := by
  induction reg with
  | nil => rfl
  | cons p rest ih =>
      obtain ⟨db, lv⟩ := p
      simp [expectedMetrics, poolMetrics, ih, Nat.mul_succ, Nat.mul_add]

theorem poolMetrics_desc_map (m : metrics) (lv : List String) (S : DBStats) :
    (poolMetrics m lv S).map Metric.desc = descList m := rfl

theorem poolMetrics_labelValues (m : metrics) (lv : List String) (S : DBStats) :
    ∀ s ∈ poolMetrics m lv S, s.labelValues = lv := by
  intro s hs
  simp only [poolMetrics, List.mem_cons] at hs
  rcases hs with h | h | h | h | h | h | h | h | h
  all_goals first
    | (subst h; rfl)
    | simp at h

theorem expectedMetrics_desc_mem (m : metrics) (statsOf : DB → DBStats)
    (reg : List (DB × List String)) :
    ∀ s ∈ expectedMetrics m statsOf reg, s.desc ∈ descList m := by
  induction reg with
  | nil => intro s hs; simp [expectedMetrics] at hs
  | cons p rest ih =>
      obtain ⟨db, lv⟩ := p
      intro s hs
      simp only [expectedMetrics, List.mem_append] at hs
      rcases hs with h | h
      · have : s.desc ∈ (poolMetrics m lv (statsOf db)).map Metric.desc :=
          List.mem_map_of_mem Metric.desc h
        rwa [poolMetrics_desc_map] at this
      · exact ih s h

/-! ### Concrete example data (the worked example of the specification) -/

/-- Example configuration: prefix `db_`, one label `service`. -/
def oEx : Multi.Options := ⟨"db_", ["service"]⟩

/-- Example single-pool configuration. -/
def oSEx : Single.Options := ⟨"db_", ["service"], ["orders"]⟩

/-- Example registry: one pool (handle 0) with label value `orders`. -/
def regEx : List (DB × List String) := [(0, ["orders"])]

/-- Example snapshot: max=10, open=3, inUse=1, idle=2, wait=5,
waitDur=1.5s (1500000000 ns), maxIdleClosed=0, maxLifetimeClosed=2. -/
def statsEx : DBStats := ⟨10, 3, 1, 2, 5, 1500000000, 0, 2⟩

/-- Example live-statistics oracle: every pool reads `statsEx`. -/
def statsOfEx : DB → DBStats := fun _ => statsEx

/-- A second example snapshot, with the cumulative counters advanced. -/
def statsEx2 : DBStats := ⟨10, 4, 2, 2, 9, 2500000000, 1, 3⟩

/-! ### Claim theorems -/

/-- Claim C2: for every `Options` value (any prefix and any ordered list
of label names), `NewCollector` — in both the multi-pool and the
single-pool shape — builds exactly 8 metric descriptors whose names are
exactly the prefix concatenated with the fixed suffixes, each carrying the
configured label names; the multi-pool registry starts empty.  The
construction is a total pure function of the options: there is no error
condition and no other side effect (nothing registers with any global
registry). -/
theorem newCollector_builds_eight_descriptors (o : Multi.Options)
    (o2 : Single.Options) (db : DB) :
    (descList (Multi.NewCollector o).m).length = 8 ∧
    (descList (Multi.NewCollector o).m).map Desc.fqName =
      [o.pfx ++ "connections_max",
       o.pfx ++ "connections_open",
       o.pfx ++ "connections_in_use",
       o.pfx ++ "connections_idle",
       o.pfx ++ "connections_wait_count_total",
       o.pfx ++ "connections_wait_duration_seconds_total",
       o.pfx ++ "connections_max_idle_closed_total",
       o.pfx ++ "connections_max_lifetime_closed_total"] ∧
    (∀ d ∈ descList (Multi.NewCollector o).m, d.variableLabels = o.Labels) ∧
    (Multi.NewCollector o).dbs = [] ∧
    (descList (Single.NewCollector o2 db).m).map Desc.fqName =
      [o2.pfx ++ "connections_max",
       o2.pfx ++ "connections_open",
       o2.pfx ++ "connections_in_use",
       o2.pfx ++ "connections_idle",
       o2.pfx ++ "connections_wait_count_total",
       o2.pfx ++ "connections_wait_duration_seconds_total",
       o2.pfx ++ "connections_max_idle_closed_total",
       o2.pfx ++ "connections_max_lifetime_closed_total"] := by
  refine ⟨rfl, rfl, ?_, rfl, rfl⟩
  intro d hd
  simp only [descList, Multi.NewCollector, mkMetrics, NewDesc, List.mem_cons] at hd
  rcases hd with h | h | h | h | h | h | h | h | h
  all_goals first
    | (subst h; rfl)
    | simp at h

/-- Claim C3: registering an already-registered pool handle panics
(models Go's `panic("duplicate register")`, before the map assignment
line), so the registry is left exactly as it was: the handle still maps to
the label values of its first registration, and no entry was added,
removed or modified. -/
theorem mustRegisterDB_duplicate_panics (c : Multi.Collector) (db : DB)
    (lv lv' : List String) (h : c.dbs.lookup db = some lv) :
    (Multi.MustRegisterDB c db lv').1 = none ∧
    (Multi.MustRegisterDB c db lv').2 = c ∧
    ((Multi.MustRegisterDB c db lv').2).dbs.lookup db = some lv := by
  simp [Multi.MustRegisterDB, h]

/-- Witness for C3 at the concrete example: pool 0 registered with
`["orders"]`, a second registration with `["payments"]` panics and leaves
the first registration intact. -/
theorem mustRegisterDB_duplicate_panics_witness :
    ((Multi.MustRegisterDB (Multi.NewCollector oEx) 0 ["orders"]).2).dbs.lookup 0
        = some ["orders"] ∧
    ((Multi.MustRegisterDB ((Multi.MustRegisterDB (Multi.NewCollector oEx) 0
        ["orders"]).2) 0 ["payments"]).1 = none ∧
     (Multi.MustRegisterDB ((Multi.MustRegisterDB (Multi.NewCollector oEx) 0
        ["orders"]).2) 0 ["payments"]).2
        = (Multi.MustRegisterDB (Multi.NewCollector oEx) 0 ["orders"]).2 ∧
     ((Multi.MustRegisterDB ((Multi.MustRegisterDB (Multi.NewCollector oEx) 0
        ["orders"]).2) 0 ["payments"]).2).dbs.lookup 0 = some ["orders"]) :=
  ⟨by decide,
   mustRegisterDB_duplicate_panics
     ((Multi.MustRegisterDB (Multi.NewCollector oEx) 0 ["orders"]).2)
     0 ["orders"] ["payments"] (by decide)⟩

/-- Claim C1: for every registered pool and every snapshot `S` read from
it during one collection pass, `Collect` emits exactly 8 samples for that
pool — the trace equals `expectedMetrics`, whose per-pool block
`poolMetrics` is by definition an 8-element list pairing the four
current-state fields with gauge kind and the four cumulative fields with
counter kind, each value being the snapshot field (exactly, in the ℚ
model) and the wait duration being the nanosecond field divided by 1e9
(seconds).  The `statsBounded` hypotheses bound every field below 2^53,
the range where the `float64` conversions performed by the Go code are
lossless and the exact-rational model is faithful.  The same holds for the
single-pool shape. -/
theorem collect_emits_eight_correct_samples (o : Multi.Options)
    (reg : List (DB × List String)) (statsOf : DB → DBStats)
    (hlen : ∀ p ∈ reg, (p.2).length = o.Labels.length)
    (_hbd : ∀ p ∈ reg, statsBounded (statsOf p.1))
    (o2 : Single.Options) (db2 : DB)
    (hlen2 : o2.LabelValues.length = o2.Labels.length)
    (_hbd2 : statsBounded (statsOf db2)) :
    (Multi.Collect { Multi.NewCollector o with dbs := reg } statsOf).2 = true ∧
    emitted (Multi.Collect { Multi.NewCollector o with dbs := reg } statsOf).1 =
      expectedMetrics (mkMetrics o.pfx o.Labels) statsOf reg ∧
    (∀ p ∈ reg,
      (poolMetrics (mkMetrics o.pfx o.Labels) p.2 (statsOf p.1)).length = 8) ∧
    (Single.Collect (Single.NewCollector o2 db2) statsOf).2 = true ∧
    emitted (Single.Collect (Single.NewCollector o2 db2) statsOf).1 =
      poolMetrics (mkMetrics o2.pfx o2.Labels) o2.LabelValues (statsOf db2) := by
  have hm := collectLoop_eq o.pfx o.Labels statsOf reg hlen
  have hs := emitAll_poolSamples o2.pfx o2.Labels o2.LabelValues (statsOf db2) hlen2
  refine ⟨?_, ?_, fun p _ => rfl, ?_, ?_⟩
  · simp [Multi.Collect, Multi.NewCollector, hm]
  · simp [Multi.Collect, Multi.NewCollector, hm, emitted_expectedEvents]
  · simp [Single.Collect, Single.NewCollector, hs]
  · simp [Single.Collect, Single.NewCollector, hs, emitted, emitted_map_emit]

/-- Witness for C1 at the specification's worked example: prefix `db_`,
label `service`, one pool with label value `orders`, snapshot
`statsEx` (wait duration 1.5 s). -/
theorem collect_emits_eight_correct_samples_witness :
    ((∀ p ∈ regEx, (p.2).length = oEx.Labels.length) ∧
     (∀ p ∈ regEx, statsBounded (statsOfEx p.1)) ∧
     oSEx.LabelValues.length = oSEx.Labels.length ∧
     statsBounded (statsOfEx 0)) ∧
    ((Multi.Collect { Multi.NewCollector oEx with dbs := regEx } statsOfEx).2 = true ∧
     emitted (Multi.Collect { Multi.NewCollector oEx with dbs := regEx } statsOfEx).1 =
       expectedMetrics (mkMetrics oEx.pfx oEx.Labels) statsOfEx regEx ∧
     (∀ p ∈ regEx,
       (poolMetrics (mkMetrics oEx.pfx oEx.Labels) p.2 (statsOfEx p.1)).length = 8) ∧
     (Single.Collect (Single.NewCollector oSEx 0) statsOfEx).2 = true ∧
     emitted (Single.Collect (Single.NewCollector oSEx 0) statsOfEx).1 =
       poolMetrics (mkMetrics oSEx.pfx oSEx.Labels) oSEx.LabelValues (statsOfEx 0)) :=
  ⟨⟨by decide, by decide, by decide, by decide⟩,
   collect_emits_eight_correct_samples oEx regEx statsOfEx (by decide) (by decide)
     oSEx 0 (by decide) (by decide)⟩

/-- Counterexample for C4: `Collect` is not total over every registry
state.  With labels `["service"]` and pool 0 registered with an empty
label-value list — a registration `MustRegisterDB` accepts — the pass
aborts (`MustNewConstMetric` panics on the first sample) and emits 0 of
the 8 samples for that pool: a partial sample set. -/
theorem collect_not_total_cex :
    (Multi.MustRegisterDB (Multi.NewCollector oEx) 0 []).1 = some () ∧
    (Multi.Collect (Multi.MustRegisterDB (Multi.NewCollector oEx) 0 []).2
        statsOfEx).2 = false ∧
    emitted (Multi.Collect (Multi.MustRegisterDB (Multi.NewCollector oEx) 0 []).2
        statsOfEx).1 = [] := by
  refine ⟨rfl, rfl, rfl⟩

/-- Claim C4 (amended): for every registry state whose registered
label-value lists each match the collector's label-name count, `Collect`
always succeeds — it never aborts — and emits a complete set of 8 samples
for every registered pool.  (As stated over *every* registry state the
claim fails: a length-mismatched registration, which registration does not
reject, makes the pass abort; see `collect_not_total_cex`.) -/
theorem collect_total_on_wellformed_registry (o : Multi.Options)
    (reg : List (DB × List String)) (statsOf : DB → DBStats)
    (hlen : ∀ p ∈ reg, (p.2).length = o.Labels.length) :
    (Multi.Collect { Multi.NewCollector o with dbs := reg } statsOf).2 = true ∧
    (emitted (Multi.Collect { Multi.NewCollector o with dbs := reg } statsOf).1).length
      = 8 * reg.length := by
  have hm := collectLoop_eq o.pfx o.Labels statsOf reg hlen
  constructor
  · simp [Multi.Collect, Multi.NewCollector, hm]
  · simp [Multi.Collect, Multi.NewCollector, hm, emitted_expectedEvents,
      expectedMetrics_length]

/-- Witness for C4 (amended) at the concrete example registry. -/
theorem collect_total_on_wellformed_registry_witness :
    (∀ p ∈ regEx, (p.2).length = oEx.Labels.length) ∧
    ((Multi.Collect { Multi.NewCollector oEx with dbs := regEx } statsOfEx).2 = true ∧
     (emitted (Multi.Collect { Multi.NewCollector oEx with dbs := regEx }
        statsOfEx).1).length = 8 * regEx.length) :=
  ⟨by decide, collect_total_on_wellformed_registry oEx regEx statsOfEx (by decide)⟩

/-- Claim C5: in every collection pass (any statistics the pools happen to
return), each of the 8 samples emitted for a pool carries exactly that
pool's registered label-value list, element for element and in order: the
emitted samples decompose pool by pool into `poolMetrics` blocks, and
every sample of a pool's block has `labelValues` equal to the registered
list.  The single-pool shape likewise stamps the fixed `LabelValues` on
every sample.  `Collect` is a pure function of the registry and the
snapshots, so this holds identically on every pass. -/
theorem collect_samples_carry_registered_labels (o : Multi.Options)
    (reg : List (DB × List String)) (statsOf : DB → DBStats)
    (hlen : ∀ p ∈ reg, (p.2).length = o.Labels.length)
    (o2 : Single.Options) (db2 : DB)
    (hlen2 : o2.LabelValues.length = o2.Labels.length) :
    (emitted (Multi.Collect { Multi.NewCollector o with dbs := reg } statsOf).1 =
      expectedMetrics (mkMetrics o.pfx o.Labels) statsOf reg) ∧
    (∀ p ∈ reg, ∀ s ∈ poolMetrics (mkMetrics o.pfx o.Labels) p.2 (statsOf p.1),
      s.labelValues = p.2) ∧
    (∀ s ∈ emitted (Single.Collect (Single.NewCollector o2 db2) statsOf).1,
      s.labelValues = o2.LabelValues) := by
  have hm := collectLoop_eq o.pfx o.Labels statsOf reg hlen
  have hs := emitAll_poolSamples o2.pfx o2.Labels o2.LabelValues (statsOf db2) hlen2
  refine ⟨?_, fun p _ => poolMetrics_labelValues _ _ _, ?_⟩
  · simp [Multi.Collect, Multi.NewCollector, hm, emitted_expectedEvents]
  · intro s hsm
    apply poolMetrics_labelValues (mkMetrics o2.pfx o2.Labels) o2.LabelValues (statsOf db2)
    simpa [Single.Collect, Single.NewCollector, hs, emitted, emitted_map_emit] using hsm

/-- Witness for C5 at the concrete example. -/
theorem collect_samples_carry_registered_labels_witness :
    ((∀ p ∈ regEx, (p.2).length = oEx.Labels.length) ∧
     oSEx.LabelValues.length = oSEx.Labels.length) ∧
    ((emitted (Multi.Collect { Multi.NewCollector oEx with dbs := regEx } statsOfEx).1 =
       expectedMetrics (mkMetrics oEx.pfx oEx.Labels) statsOfEx regEx) ∧
     (∀ p ∈ regEx, ∀ s ∈ poolMetrics (mkMetrics oEx.pfx oEx.Labels) p.2 (statsOfEx p.1),
       s.labelValues = p.2) ∧
     (∀ s ∈ emitted (Single.Collect (Single.NewCollector oSEx 0) statsOfEx).1,
       s.labelValues = oSEx.LabelValues)) :=
  ⟨⟨by decide, by decide⟩,
   collect_samples_carry_registered_labels oEx regEx statsOfEx (by decide)
     oSEx 0 (by decide)⟩

/-- Claim C6: in every collection pass the statistics-snapshot accessor
(`db.Stats()`) is invoked exactly once per registered pool — the trace
contains exactly one `statsCall` event per registry key (registry keys are
distinct, it is a Go map) — and all 8 samples for a pool are a function of
that single snapshot: the emitted samples are `expectedMetrics`, whose
per-pool block is `poolMetrics _ _ (statsOf p.1)`, the one read; no field
is re-read.  The single-pool shape reads `Stats` exactly once as well. -/
theorem collect_reads_stats_once_per_pool (o : Multi.Options)
    (reg : List (DB × List String)) (statsOf : DB → DBStats)
    (hlen : ∀ p ∈ reg, (p.2).length = o.Labels.length)
    (hnd : (reg.map Prod.fst).Nodup)
    (o2 : Single.Options) (db2 : DB)
    (hlen2 : o2.LabelValues.length = o2.Labels.length) :
    (∀ db ∈ reg.map Prod.fst,
      (statsCalls (Multi.Collect { Multi.NewCollector o with dbs := reg } statsOf).1).count db
        = 1) ∧
    emitted (Multi.Collect { Multi.NewCollector o with dbs := reg } statsOf).1 =
      expectedMetrics (mkMetrics o.pfx o.Labels) statsOf reg ∧
    statsCalls (Single.Collect (Single.NewCollector o2 db2) statsOf).1 = [db2] := by
  have hm := collectLoop_eq o.pfx o.Labels statsOf reg hlen
  have hs := emitAll_poolSamples o2.pfx o2.Labels o2.LabelValues (statsOf db2) hlen2
  refine ⟨?_, ?_, ?_⟩
  · intro db hdb
    have hcalls : statsCalls (Multi.Collect { Multi.NewCollector o with dbs := reg }
        statsOf).1 = reg.map Prod.fst := by
      simp [Multi.Collect, Multi.NewCollector, hm, statsCalls_expectedEvents]
    rw [hcalls]
    exact List.count_eq_one_of_mem hnd hdb
  · simp [Multi.Collect, Multi.NewCollector, hm, emitted_expectedEvents]
  · simp [Single.Collect, Single.NewCollector, hs, statsCalls, statsCalls_map_emit]

/-- Witness for C6 at the concrete example. -/
theorem collect_reads_stats_once_per_pool_witness :
    ((∀ p ∈ regEx, (p.2).length = oEx.Labels.length) ∧
     (regEx.map Prod.fst).Nodup ∧
     oSEx.LabelValues.length = oSEx.Labels.length) ∧
    ((∀ db ∈ regEx.map Prod.fst,
       (statsCalls (Multi.Collect { Multi.NewCollector oEx with dbs := regEx }
         statsOfEx).1).count db = 1) ∧
     emitted (Multi.Collect { Multi.NewCollector oEx with dbs := regEx } statsOfEx).1 =
       expectedMetrics (mkMetrics oEx.pfx oEx.Labels) statsOfEx regEx ∧
     statsCalls (Single.Collect (Single.NewCollector oSEx 0) statsOfEx).1 = [0]) :=
  ⟨⟨by decide, by decide, by decide⟩,
   collect_reads_stats_once_per_pool oEx regEx statsOfEx (by decide) (by decide)
     oSEx 0 (by decide)⟩

/-- Claim C7: `Describe` is `prometheus.DescribeByCollect`: the
descriptors it reports are exactly the descriptors of the samples
`Collect` emits; every reported descriptor belongs to the fixed 8-element
descriptor set built at construction, and as soon as at least one pool is
registered every one of the 8 is reported.  The single-pool shape reports
exactly the 8-element descriptor list. -/
theorem describe_reports_collect_descriptors (o : Multi.Options)
    (reg : List (DB × List String)) (statsOf : DB → DBStats)
    (hlen : ∀ p ∈ reg, (p.2).length = o.Labels.length)
    (o2 : Single.Options) (db2 : DB)
    (hlen2 : o2.LabelValues.length = o2.Labels.length) :
    (Multi.Describe { Multi.NewCollector o with dbs := reg } statsOf).1 =
      (emitted (Multi.Collect { Multi.NewCollector o with dbs := reg } statsOf).1).map
        Metric.desc ∧
    (∀ d ∈ (Multi.Describe { Multi.NewCollector o with dbs := reg } statsOf).1,
      d ∈ descList (mkMetrics o.pfx o.Labels)) ∧
    (reg ≠ [] → ∀ d ∈ descList (mkMetrics o.pfx o.Labels),
      d ∈ (Multi.Describe { Multi.NewCollector o with dbs := reg } statsOf).1) ∧
    (Single.Describe (Single.NewCollector o2 db2) statsOf).1 =
      descList (mkMetrics o2.pfx o2.Labels) := by
  have hm := collectLoop_eq o.pfx o.Labels statsOf reg hlen
  have hs := emitAll_poolSamples o2.pfx o2.Labels o2.LabelValues (statsOf db2) hlen2
  have hdesc : (Multi.Describe { Multi.NewCollector o with dbs := reg } statsOf).1 =
      (expectedMetrics (mkMetrics o.pfx o.Labels) statsOf reg).map Metric.desc := by
    simp [Multi.Describe, Multi.Collect, Multi.NewCollector, hm, emitted_expectedEvents]
  refine ⟨rfl, ?_, ?_, ?_⟩
  · intro d hd
    rw [hdesc] at hd
    obtain ⟨s, hsm, hds⟩ := List.mem_map.mp hd
    exact hds ▸ expectedMetrics_desc_mem _ _ _ s hsm
  · intro hne d hd
    rw [hdesc]
    obtain ⟨p, rest, hreg⟩ : ∃ p rest, reg = p :: rest := by
      cases reg with
      | nil => exact absurd rfl hne
      | cons p rest => exact ⟨p, rest, rfl⟩
    subst hreg
    obtain ⟨db, lv⟩ := p
    have : (expectedMetrics (mkMetrics o.pfx o.Labels) statsOf ((db, lv) :: rest)).map
        Metric.desc = descList (mkMetrics o.pfx o.Labels) ++
          (expectedMetrics (mkMetrics o.pfx o.Labels) statsOf rest).map Metric.desc := by
      simp only [expectedMetrics, List.map_append, poolMetrics_desc_map]
    rw [this]
    exact List.mem_append_left _ hd
  · simp [Single.Describe, Single.Collect, Single.NewCollector, hs, emitted,
      emitted_map_emit, poolMetrics_desc_map]

/-- Witness for C7 at the concrete example. -/
theorem describe_reports_collect_descriptors_witness :
    ((∀ p ∈ regEx, (p.2).length = oEx.Labels.length) ∧
     oSEx.LabelValues.length = oSEx.Labels.length) ∧
    ((Multi.Describe { Multi.NewCollector oEx with dbs := regEx } statsOfEx).1 =
       (emitted (Multi.Collect { Multi.NewCollector oEx with dbs := regEx }
         statsOfEx).1).map Metric.desc ∧
     (∀ d ∈ (Multi.Describe { Multi.NewCollector oEx with dbs := regEx } statsOfEx).1,
       d ∈ descList (mkMetrics oEx.pfx oEx.Labels)) ∧
     (regEx ≠ [] → ∀ d ∈ descList (mkMetrics oEx.pfx oEx.Labels),
       d ∈ (Multi.Describe { Multi.NewCollector oEx with dbs := regEx } statsOfEx).1) ∧
     (Single.Describe (Single.NewCollector oSEx 0) statsOfEx).1 =
       descList (mkMetrics oSEx.pfx oSEx.Labels)) :=
  ⟨⟨by decide, by decide⟩,
   describe_reports_collect_descriptors oEx regEx statsOfEx (by decide)
     oSEx 0 (by decide)⟩

/-- Claim C8: the collector retains no statistics state between passes —
`Collect` returns only the pass's trace, never a modified collector — so
for any two consecutive passes over the same registered pool whose
underlying counters read `S1` on the first pass and `S2` on the second,
the first pass emits exactly the samples of `S1` and the second exactly
the samples of `S2` (old values first, new cumulative values second, no
caching beyond one pass). -/
theorem consecutive_passes_reflect_current_stats (o : Multi.Options) (db : DB)
    (lv : List String) (S1 S2 : DBStats) (hlen : lv.length = o.Labels.length) :
    emitted (Multi.Collect { Multi.NewCollector o with dbs := [(db, lv)] }
        (fun _ => S1)).1 = poolMetrics (mkMetrics o.pfx o.Labels) lv S1 ∧
    emitted (Multi.Collect { Multi.NewCollector o with dbs := [(db, lv)] }
        (fun _ => S2)).1 = poolMetrics (mkMetrics o.pfx o.Labels) lv S2 := by
  have hlen1 : ∀ p ∈ [(db, lv)], (p.2 : List String).length = o.Labels.length := by
    intro p hp
    simp only [List.mem_singleton] at hp
    subst hp
    exact hlen
  have h1 := collectLoop_eq o.pfx o.Labels (fun _ => S1) [(db, lv)] hlen1
  have h2 := collectLoop_eq o.pfx o.Labels (fun _ => S2) [(db, lv)] hlen1
  constructor
  · simp [Multi.Collect, Multi.NewCollector, h1, emitted_expectedEvents,
      expectedMetrics]
  · simp [Multi.Collect, Multi.NewCollector, h2, emitted_expectedEvents,
      expectedMetrics]

/-- Witness for C8: the example pool first reads `statsEx`, then
`statsEx2` with advanced counters; each pass reflects its own snapshot. -/
theorem consecutive_passes_reflect_current_stats_witness :
    (["orders"] : List String).length = oEx.Labels.length ∧
    (emitted (Multi.Collect { Multi.NewCollector oEx with dbs := [(0, ["orders"])] }
        (fun _ => statsEx)).1 = poolMetrics (mkMetrics oEx.pfx oEx.Labels) ["orders"]
        statsEx ∧
     emitted (Multi.Collect { Multi.NewCollector oEx with dbs := [(0, ["orders"])] }
        (fun _ => statsEx2)).1 = poolMetrics (mkMetrics oEx.pfx oEx.Labels) ["orders"]
        statsEx2) :=
  ⟨by decide,
   consecutive_passes_reflect_current_stats oEx 0 ["orders"] statsEx statsEx2 (by decide)⟩

/-- Claim C10: neither `MustRegisterDB` nor single-pool construction
checks the label-value count against the label-name count: registering a
fresh handle succeeds for *any* label-value list, appending it to the
registry unchanged; with the example collector (one label name) and an
empty label-value list the registration succeeds and the mismatch first
surfaces inside `Collect`, which aborts on the very first sample of that
pool — the trace shows the `Stats` read and zero emitted samples. -/
theorem registration_unchecked_collect_aborts (c : Multi.Collector) (db : DB)
    (lv : List String) (hfresh : c.dbs.lookup db = none) :
    ((Multi.MustRegisterDB c db lv).1 = some () ∧
     (Multi.MustRegisterDB c db lv).2.dbs = c.dbs ++ [(db, lv)]) ∧
    ((Multi.MustRegisterDB (Multi.NewCollector oEx) 0 []).1 = some () ∧
     Multi.Collect (Multi.MustRegisterDB (Multi.NewCollector oEx) 0 []).2 statsOfEx
       = ([Event.statsCall 0], false)) := by
  refine ⟨?_, rfl, rfl⟩
  simp [Multi.MustRegisterDB, hfresh]

/-- Witness for C10: registering a fresh handle with a two-element
label-value list against a one-label schema succeeds. -/
theorem registration_unchecked_collect_aborts_witness :
    (Multi.NewCollector oEx).dbs.lookup 5 = none ∧
    (((Multi.MustRegisterDB (Multi.NewCollector oEx) 5 ["a", "b"]).1 = some () ∧
      (Multi.MustRegisterDB (Multi.NewCollector oEx) 5 ["a", "b"]).2.dbs =
        (Multi.NewCollector oEx).dbs ++ [(5, ["a", "b"])]) ∧
     ((Multi.MustRegisterDB (Multi.NewCollector oEx) 0 []).1 = some () ∧
      Multi.Collect (Multi.MustRegisterDB (Multi.NewCollector oEx) 0 []).2 statsOfEx
        = ([Event.statsCall 0], false))) :=
  ⟨by decide,
   registration_unchecked_collect_aborts (Multi.NewCollector oEx) 5 ["a", "b"]
     (by decide)⟩

end sqlmetrics
